import Mathlib

/-!
Verification of the configuration-resolution and cache-probe reconciliation
engine of the terraform-provider-envbuilder repository.

The definitions below are a shallow embedding of the Go source:
  - internal/provider helpers (optionsFromDataModel, overrideOptionsFromExtraEnv,
    computeEnvFromOptions) from the later revision of the helpers file,
  - the cached-image resource lifecycle (Create / Read) and sortedKeyValues,
  - the image binary locator (extractEnvbuilderFromImage).

Go maps are modelled as association lists, Terraform nullable attributes as
Option values, and the external serpent typed-option registry is modelled from
the spec where noted.  Machine integers are modelled as Int (no claim below
exercises 64-bit overflow).
-/

namespace Envbuilder

/-! ## String utilities (Go byte-wise string order, split, prefix, contains) -/

/-- Byte-wise (code-point) lexicographic strict order on char lists, matching
Go's `<` on strings for the ASCII data used here. -/
def ltChars : List Char → List Char → Bool
  | [], [] => false
  | [], _ :: _ => true
  | _ :: _, [] => false
  | a :: as, b :: bs =>
    if a.toNat < b.toNat then true
    else if b.toNat < a.toNat then false
    else ltChars as bs

/-- Go `s < t` on strings. -/
def ltStr (a b : String) : Bool := ltChars a.data b.data

/-- Insert into an ascending list, keeping it ascending. -/
def insertSorted (x : String) : List String → List String
  | [] => [x]
  | y :: ys => if ltStr y x then y :: insertSorted x ys else x :: y :: ys

/-- Model of Go `sort.Strings` / `slices.Sort`: ascending byte-wise order. -/
def sortStrings (l : List String) : List String := l.foldr insertSorted []

/-- Split a char list on the comma character. -/
def splitCommaCs : List Char → List Char → List String
  | acc, [] => [String.mk acc.reverse]
  | acc, c :: rest =>
    if c = ',' then String.mk acc.reverse :: splitCommaCs [] rest
    else splitCommaCs (c :: acc) rest

/-- Comma-splitting of a string, the list-option item separator. -/
def splitComma (s : String) : List String := splitCommaCs [] s.data

/-- Join a list of strings with commas (Go `strings.Join(xs, ",")`). -/
def joinComma : List String → String
  | [] => ""
  | [x] => x
  | x :: xs => x ++ "," ++ joinComma xs

/-- Char-list prefix test. -/
def isPfxChars : List Char → List Char → Bool
  | [], _ => true
  | _ :: _, [] => false
  | p :: ps, c :: cs => p == c && isPfxChars ps cs

/-- Go `strings.HasPrefix s pfx`. -/
def startsWithStr (s pfx : String) : Bool := isPfxChars pfx.data s.data

/-- Substring test on char lists. -/
def containsChars : List Char → List Char → Bool
  | [], ndl => ndl.isEmpty
  | c :: t, ndl => isPfxChars ndl (c :: t) || containsChars t ndl

/-- Go `strings.Contains hay ndl`. -/
def containsSubstr (hay ndl : String) : Bool := containsChars hay.data ndl.data

/-! ## Association-list model of Go string maps -/

/-- Lookup of a key in an association list (keys are unique by construction
wherever we build one with `envSet`). -/
def envLookup : List (String × String) → String → Option String
  | [], _ => none
  | kv :: rest, k => if kv.1 = k then some kv.2 else envLookup rest k

/-- Go `m[k] = v`: replace an existing binding in place or append a new one. -/
def envSet : List (String × String) → String → String → List (String × String)
  | [], k, v => [(k, v)]
  | kv :: rest, k, v =>
    if kv.1 = k then (k, v) :: rest else kv :: envSet rest k v

/-- Last binding of a key in an (arbitrary, possibly duplicated) entry list;
a Go map holds at most one, so this is just its binding when present. -/
def lookupLast : List (String × String) → String → Option String
  | [], _ => none
  | kv :: rest, k =>
    match lookupLast rest k with
    | some v => some v
    | none => if kv.1 = k then some kv.2 else none

/-! ## Diagnostics -/

inductive Severity
  | warning
  | error
  deriving DecidableEq, Repr

/-- The specific diagnostics emitted by the resolution and lifecycle code; each
constructor corresponds to one `AddAttributeWarning` / `AddError` /
`AddWarning` call site in the source. -/
inductive DiagKind
  | cannotOverrideRequired (key : String)
  | overridesProviderValue (key : String)
  | invalidValue (key : String)
  | sshKeyMutualExclusivity
  | cachedImageNotFound
  | failedDigest
  | rerunProbe
  | unableToCheckImage
  | imageNotFoundRecreating
  | errorFetchingDigest
  deriving DecidableEq, Repr

structure Diag where
  severity : Severity
  kind : DiagKind
  deriving DecidableEq, Repr

/-- `diags.HasError()` of the plugin framework. -/
def hasError (ds : List Diag) : Bool :=
  ds.any (fun d => decide (d.severity = Severity.error))

/-- Number of occurrences of one specific diagnostic in a list. -/
def countDiag : List Diag → Diag → Nat
  | [], _ => 0
  | x :: rest, d => (if x = d then 1 else 0) + countDiag rest d

/-! ## The Options data model (eboptions.Options restricted to the fields the
provider writes; every other envbuilder option stays zero-valued throughout
this flow and is dropped by the zero-value filter of `computeEnvFromOptions`). -/

structure Options where
  cacheRepo : String := ""
  gitURL : String := ""
  baseImageCacheDir : String := ""
  buildContextPath : String := ""
  buildSecrets : List String := []
  cacheTTLDays : Int := 0
  devcontainerDir : String := ""
  devcontainerJSONPath : String := ""
  dockerfilePath : String := ""
  dockerConfigBase64 : String := ""
  exitOnBuildFailure : Bool := false
  fallbackImage : String := ""
  gitCloneDepth : Int := 0
  gitCloneSingleBranch : Bool := false
  gitHTTPProxyURL : String := ""
  gitSSHPrivateKeyPath : String := ""
  gitSSHPrivateKeyBase64 : String := ""
  gitUsername : String := ""
  gitPassword : String := ""
  ignorePaths : List String := []
  insecure : Bool := false
  remoteRepoBuildMode : Bool := false
  sslCertBase64 : String := ""
  verbose : Bool := false
  workspaceFolder : String := ""
  deriving DecidableEq, Repr

/-- One named option of the serpent CLI registry (`opts.CLI()`), restricted to
the options the provider data model can populate. -/
inductive OptField
  | cacheRepo
  | gitURL
  | baseImageCacheDir
  | buildContextPath
  | buildSecrets
  | cacheTTLDays
  | devcontainerDir
  | devcontainerJSONPath
  | dockerfilePath
  | dockerConfigBase64
  | exitOnBuildFailure
  | fallbackImage
  | gitCloneDepth
  | gitCloneSingleBranch
  | gitHTTPProxyURL
  | gitSSHPrivateKeyPath
  | gitSSHPrivateKeyBase64
  | gitUsername
  | gitPassword
  | ignorePaths
  | insecure
  | remoteRepoBuildMode
  | sslCertBase64
  | verbose
  | workspaceFolder
  deriving DecidableEq, Repr

/-- All modelled options, in declaration order. -/
def OptField.all : List OptField :=
  [.cacheRepo, .gitURL, .baseImageCacheDir, .buildContextPath, .buildSecrets,
   .cacheTTLDays, .devcontainerDir, .devcontainerJSONPath, .dockerfilePath,
   .dockerConfigBase64, .exitOnBuildFailure, .fallbackImage, .gitCloneDepth,
   .gitCloneSingleBranch, .gitHTTPProxyURL, .gitSSHPrivateKeyPath,
   .gitSSHPrivateKeyBase64, .gitUsername, .gitPassword, .ignorePaths,
   .insecure, .remoteRepoBuildMode, .sslCertBase64, .verbose, .workspaceFolder]

/-- The environment-variable name of each option (`opt.Env`), as listed in the
provider source. -/
def OptField.envName : OptField → String
  | .cacheRepo => "ENVBUILDER_CACHE_REPO"
  | .gitURL => "ENVBUILDER_GIT_URL"
  | .baseImageCacheDir => "ENVBUILDER_BASE_IMAGE_CACHE_DIR"
  | .buildContextPath => "ENVBUILDER_BUILD_CONTEXT_PATH"
  | .buildSecrets => "ENVBUILDER_BUILD_SECRETS"
  | .cacheTTLDays => "ENVBUILDER_CACHE_TTL_DAYS"
  | .devcontainerDir => "ENVBUILDER_DEVCONTAINER_DIR"
  | .devcontainerJSONPath => "ENVBUILDER_DEVCONTAINER_JSON_PATH"
  | .dockerfilePath => "ENVBUILDER_DOCKERFILE_PATH"
  | .dockerConfigBase64 => "ENVBUILDER_DOCKER_CONFIG_BASE64"
  | .exitOnBuildFailure => "ENVBUILDER_EXIT_ON_BUILD_FAILURE"
  | .fallbackImage => "ENVBUILDER_FALLBACK_IMAGE"
  | .gitCloneDepth => "ENVBUILDER_GIT_CLONE_DEPTH"
  | .gitCloneSingleBranch => "ENVBUILDER_GIT_CLONE_SINGLE_BRANCH"
  | .gitHTTPProxyURL => "ENVBUILDER_GIT_HTTP_PROXY_URL"
  | .gitSSHPrivateKeyPath => "ENVBUILDER_GIT_SSH_PRIVATE_KEY_PATH"
  | .gitSSHPrivateKeyBase64 => "ENVBUILDER_GIT_SSH_PRIVATE_KEY_BASE64"
  | .gitUsername => "ENVBUILDER_GIT_USERNAME"
  | .gitPassword => "ENVBUILDER_GIT_PASSWORD"
  | .ignorePaths => "ENVBUILDER_IGNORE_PATHS"
  | .insecure => "ENVBUILDER_INSECURE"
  | .remoteRepoBuildMode => "ENVBUILDER_REMOTE_REPO_BUILD_MODE"
  | .sslCertBase64 => "ENVBUILDER_SSL_CERT_BASE64"
  | .verbose => "ENVBUILDER_VERBOSE"
  | .workspaceFolder => "ENVBUILDER_WORKSPACE_FOLDER"

/-- The primitive kind of each option value. -/
inductive OptKind
  | str
  | bool
  | int
  | list
  deriving DecidableEq, Repr

def OptField.kind : OptField → OptKind
  | .cacheRepo => .str
  | .gitURL => .str
  | .baseImageCacheDir => .str
  | .buildContextPath => .str
  | .buildSecrets => .list
  | .cacheTTLDays => .int
  | .devcontainerDir => .str
  | .devcontainerJSONPath => .str
  | .dockerfilePath => .str
  | .dockerConfigBase64 => .str
  | .exitOnBuildFailure => .bool
  | .fallbackImage => .str
  | .gitCloneDepth => .int
  | .gitCloneSingleBranch => .bool
  | .gitHTTPProxyURL => .str
  | .gitSSHPrivateKeyPath => .str
  | .gitSSHPrivateKeyBase64 => .str
  | .gitUsername => .str
  | .gitPassword => .str
  | .ignorePaths => .list
  | .insecure => .bool
  | .remoteRepoBuildMode => .bool
  | .sslCertBase64 => .str
  | .verbose => .bool
  | .workspaceFolder => .str

/-- A tagged option value, the dynamic value behind a `pflag.Value`. -/
inductive FieldVal
  | s (v : String)
  | b (v : Bool)
  | i (v : Int)
  | l (v : List String)
  deriving DecidableEq, Repr

def FieldVal.kindOf : FieldVal → OptKind
  | .s _ => .str
  | .b _ => .bool
  | .i _ => .int
  | .l _ => .list

/-- Read an option's current value out of the Options struct. -/
def Options.getField (o : Options) : OptField → FieldVal
  | .cacheRepo => .s o.cacheRepo
  | .gitURL => .s o.gitURL
  | .baseImageCacheDir => .s o.baseImageCacheDir
  | .buildContextPath => .s o.buildContextPath
  | .buildSecrets => .l o.buildSecrets
  | .cacheTTLDays => .i o.cacheTTLDays
  | .devcontainerDir => .s o.devcontainerDir
  | .devcontainerJSONPath => .s o.devcontainerJSONPath
  | .dockerfilePath => .s o.dockerfilePath
  | .dockerConfigBase64 => .s o.dockerConfigBase64
  | .exitOnBuildFailure => .b o.exitOnBuildFailure
  | .fallbackImage => .s o.fallbackImage
  | .gitCloneDepth => .i o.gitCloneDepth
  | .gitCloneSingleBranch => .b o.gitCloneSingleBranch
  | .gitHTTPProxyURL => .s o.gitHTTPProxyURL
  | .gitSSHPrivateKeyPath => .s o.gitSSHPrivateKeyPath
  | .gitSSHPrivateKeyBase64 => .s o.gitSSHPrivateKeyBase64
  | .gitUsername => .s o.gitUsername
  | .gitPassword => .s o.gitPassword
  | .ignorePaths => .l o.ignorePaths
  | .insecure => .b o.insecure
  | .remoteRepoBuildMode => .b o.remoteRepoBuildMode
  | .sslCertBase64 => .s o.sslCertBase64
  | .verbose => .b o.verbose
  | .workspaceFolder => .s o.workspaceFolder

/-- Write an option's value into the Options struct; a kind-mismatched write
(never produced by the setters below) leaves the struct unchanged. -/
def Options.setField (o : Options) : OptField → FieldVal → Options
  | .cacheRepo, .s v => { o with cacheRepo := v }
  | .gitURL, .s v => { o with gitURL := v }
  | .baseImageCacheDir, .s v => { o with baseImageCacheDir := v }
  | .buildContextPath, .s v => { o with buildContextPath := v }
  | .buildSecrets, .l v => { o with buildSecrets := v }
  | .cacheTTLDays, .i v => { o with cacheTTLDays := v }
  | .devcontainerDir, .s v => { o with devcontainerDir := v }
  | .devcontainerJSONPath, .s v => { o with devcontainerJSONPath := v }
  | .dockerfilePath, .s v => { o with dockerfilePath := v }
  | .dockerConfigBase64, .s v => { o with dockerConfigBase64 := v }
  | .exitOnBuildFailure, .b v => { o with exitOnBuildFailure := v }
  | .fallbackImage, .s v => { o with fallbackImage := v }
  | .gitCloneDepth, .i v => { o with gitCloneDepth := v }
  | .gitCloneSingleBranch, .b v => { o with gitCloneSingleBranch := v }
  | .gitHTTPProxyURL, .s v => { o with gitHTTPProxyURL := v }
  | .gitSSHPrivateKeyPath, .s v => { o with gitSSHPrivateKeyPath := v }
  | .gitSSHPrivateKeyBase64, .s v => { o with gitSSHPrivateKeyBase64 := v }
  | .gitUsername, .s v => { o with gitUsername := v }
  | .gitPassword, .s v => { o with gitPassword := v }
  | .ignorePaths, .l v => { o with ignorePaths := v }
  | .insecure, .b v => { o with insecure := v }
  | .remoteRepoBuildMode, .b v => { o with remoteRepoBuildMode := v }
  | .sslCertBase64, .s v => { o with sslCertBase64 := v }
  | .verbose, .b v => { o with verbose := v }
  | .workspaceFolder, .s v => { o with workspaceFolder := v }
  | _, _ => o

/-- The `optsMap` lookup of `overrideOptionsFromExtraEnv`: environment-variable
name to option, for the options of the registry. -/
def lookupOptField (k : String) : Option OptField :=
  if k = "ENVBUILDER_CACHE_REPO" then some .cacheRepo
  else if k = "ENVBUILDER_GIT_URL" then some .gitURL
  else if k = "ENVBUILDER_BASE_IMAGE_CACHE_DIR" then some .baseImageCacheDir
  else if k = "ENVBUILDER_BUILD_CONTEXT_PATH" then some .buildContextPath
  else if k = "ENVBUILDER_BUILD_SECRETS" then some .buildSecrets
  else if k = "ENVBUILDER_CACHE_TTL_DAYS" then some .cacheTTLDays
  else if k = "ENVBUILDER_DEVCONTAINER_DIR" then some .devcontainerDir
  else if k = "ENVBUILDER_DEVCONTAINER_JSON_PATH" then some .devcontainerJSONPath
  else if k = "ENVBUILDER_DOCKERFILE_PATH" then some .dockerfilePath
  else if k = "ENVBUILDER_DOCKER_CONFIG_BASE64" then some .dockerConfigBase64
  else if k = "ENVBUILDER_EXIT_ON_BUILD_FAILURE" then some .exitOnBuildFailure
  else if k = "ENVBUILDER_FALLBACK_IMAGE" then some .fallbackImage
  else if k = "ENVBUILDER_GIT_CLONE_DEPTH" then some .gitCloneDepth
  else if k = "ENVBUILDER_GIT_CLONE_SINGLE_BRANCH" then some .gitCloneSingleBranch
  else if k = "ENVBUILDER_GIT_HTTP_PROXY_URL" then some .gitHTTPProxyURL
  else if k = "ENVBUILDER_GIT_SSH_PRIVATE_KEY_PATH" then some .gitSSHPrivateKeyPath
  else if k = "ENVBUILDER_GIT_SSH_PRIVATE_KEY_BASE64" then some .gitSSHPrivateKeyBase64
  else if k = "ENVBUILDER_GIT_USERNAME" then some .gitUsername
  else if k = "ENVBUILDER_GIT_PASSWORD" then some .gitPassword
  else if k = "ENVBUILDER_IGNORE_PATHS" then some .ignorePaths
  else if k = "ENVBUILDER_INSECURE" then some .insecure
  else if k = "ENVBUILDER_REMOTE_REPO_BUILD_MODE" then some .remoteRepoBuildMode
  else if k = "ENVBUILDER_SSL_CERT_BASE64" then some .sslCertBase64
  else if k = "ENVBUILDER_VERBOSE" then some .verbose
  else if k = "ENVBUILDER_WORKSPACE_FOLDER" then some .workspaceFolder
  else none

/-- Options that cannot be overridden by extra_env (`nonOverrideOptions`). -/
def nonOverrideOptions : List String :=
  ["ENVBUILDER_CACHE_REPO", "ENVBUILDER_GIT_URL"]

/-! ## Typed setters (modelled from the spec) -/

/-- Go `strconv.ParseBool`. -/
def parseGoBool (s : String) : Except Unit Bool :=
  if s = "1" ∨ s = "t" ∨ s = "T" ∨ s = "TRUE" ∨ s = "true" ∨ s = "True" then .ok true
  else if s = "0" ∨ s = "f" ∨ s = "F" ∨ s = "FALSE" ∨ s = "false" ∨ s = "False" then .ok false
  else .error ()

def allDigits (cs : List Char) : Bool := cs.all (fun c => c.isDigit)

def digitsVal (cs : List Char) : Nat :=
  cs.foldl (fun a c => a * 10 + (c.toNat - 48)) 0

/-- Go `strconv.ParseInt` on decimal input (overflow is out of scope for the
claims below). -/
def parseGoInt (s : String) : Except Unit Int :=
  match s.data with
  | [] => .error ()
  | c :: rest =>
    if c = '+' then
      if rest ≠ [] ∧ allDigits rest then .ok (digitsVal rest : Int) else .error ()
    else if c = '-' then
      if rest ≠ [] ∧ allDigits rest then .ok (-(digitsVal rest : Int)) else .error ()
    else if allDigits (c :: rest) then .ok (digitsVal (c :: rest) : Int)
    else .error ()

def FieldVal.curList : FieldVal → List String
  | .l vs => vs
  | _ => []

/-- Modelled from the spec: the serpent typed setter (`pflag.Value.Set`) of the
external options package.  String values replace; bool and int values are
parsed (parse failure leaves the option untouched at the caller); a string
array appends the comma-separated items to the current value, and setting the
empty string resets the array to empty — the append-on-set behavior behind the
reset-before-set workaround in the provider source. -/
def serpentSet : OptKind → FieldVal → String → Except Unit FieldVal
  | .str, _, v => .ok (.s v)
  | .bool, _, v => (parseGoBool v).map .b
  | .int, _, v => (parseGoInt v).map .i
  | .list, cur, v =>
    .ok (.l (if v = "" then [] else cur.curList ++ splitComma v))

/-- Go `opt.Value.String()` (with the string-array branch of
`computeEnvFromOptions`, which joins the slice with commas). -/
def fieldStr : FieldVal → String
  | .s v => v
  | .b v => if v then "true" else "false"
  | .i v => toString v
  | .l vs => joinComma vs

/-! ## overrideOptionsFromExtraEnv -/

/-- The body of the `for key, val := range extraEnv` loop of
`overrideOptionsFromExtraEnv`: skip unknown keys; warn and skip immutable
keys; warn when shadowing a provider-set option; reset a string-array option
to empty before setting; parse-and-set, turning a parse failure into an
error diagnostic. -/
def overrideOne (po : List String) (acc : Options × List Diag)
    (kv : String × String) : Options × List Diag :=
  match lookupOptField kv.1 with
  | none => acc
  | some f =>
    if kv.1 ∈ nonOverrideOptions then
      (acc.1, acc.2 ++ [⟨.warning, .cannotOverrideRequired kv.1⟩])
    else
      let ds :=
        if kv.1 ∈ po then
          acc.2 ++ [⟨.warning, .overridesProviderValue kv.1⟩]
        else acc.2
      let o :=
        if f.kind = OptKind.list then Options.setField acc.1 f (.l []) else acc.1
      match serpentSet f.kind (Options.getField o f) kv.2 with
      | .ok w => (Options.setField o f w, ds)
      | .error _ => (o, ds ++ [⟨.error, .invalidValue kv.1⟩])

/-- `overrideOptionsFromExtraEnv opts extraEnv providerOpts`: apply the
override map onto the option set, accumulating diagnostics. -/
def overrideOptionsFromExtraEnv (opts : Options)
    (extraEnv : List (String × String)) (po : List String) :
    Options × List Diag :=
  extraEnv.foldl (overrideOne po) (opts, [])

/-- The net effect of one override entry on the option values: none for an
unknown key, an immutable key, or a failed parse; otherwise the single field
written and the value written to it.  (`overrideOne_val` below proves this
is exactly what the loop body does to the option set.) -/
def entryEffect (kv : String × String) : Option (OptField × FieldVal) :=
  match lookupOptField kv.1 with
  | none => none
  | some f =>
    if kv.1 ∈ nonOverrideOptions then none
    else
      match f.kind with
      | .list => some (f, .l (if kv.2 = "" then [] else splitComma kv.2))
      | .str => some (f, .s kv.2)
      | .bool =>
        match parseGoBool kv.2 with
        | .ok b => some (f, .b b)
        | .error _ => none
      | .int =>
        match parseGoInt kv.2 with
        | .ok n => some (f, .i n)
        | .error _ => none

/-- The diagnostics appended by one override entry (independent of the
current option values; `overrideOne_snd` below proves this is exactly what
the loop body appends). -/
def overrideOneDiags (po : List String) (kv : String × String) : List Diag :=
  match lookupOptField kv.1 with
  | none => []
  | some f =>
    if kv.1 ∈ nonOverrideOptions then
      [⟨.warning, .cannotOverrideRequired kv.1⟩]
    else
      (if kv.1 ∈ po then [⟨.warning, .overridesProviderValue kv.1⟩] else []) ++
      (match f.kind with
       | .bool =>
         match parseGoBool kv.2 with
         | .ok _ => []
         | .error _ => [⟨.error, .invalidValue kv.1⟩]
       | .int =>
         match parseGoInt kv.2 with
         | .ok _ => []
         | .error _ => [⟨.error, .invalidValue kv.1⟩]
       | _ => [])

/-- Apply one optional field write. -/
def applyEffect (o : Options) : Option (OptField × FieldVal) → Options
  | none => o
  | some fw => Options.setField o fw.1 fw.2

/-- Apply a sequence of optional field writes. -/
def applyEffects (o : Options) (effs : List (Option (OptField × FieldVal))) :
    Options :=
  effs.foldl applyEffect o

/-- The last write to a given field in a sequence of effects. -/
def lastWrite : List (Option (OptField × FieldVal)) → OptField → Option FieldVal
  | [], _ => none
  | e :: rest, f =>
    match lastWrite rest f with
    | some w => some w
    | none =>
      match e with
      | some fw => if fw.1 = f then some fw.2 else none
      | none => none

/-! ## optionsFromDataModel -/

/-- The provider data model (CachedImageResourceModel): required inputs plus
the optional typed attributes, with `none` for a null attribute. -/
structure CachedImageResourceModel where
  builderImage : String
  cacheRepo : String
  gitURL : String
  baseImageCacheDir : Option String := none
  buildContextPath : Option String := none
  buildSecrets : Option (List (String × String)) := none
  cacheTTLDays : Option Int := none
  devcontainerDir : Option String := none
  devcontainerJSONPath : Option String := none
  dockerfilePath : Option String := none
  dockerConfigBase64 : Option String := none
  exitOnBuildFailure : Option Bool := none
  extraEnv : List (String × String) := []
  fallbackImage : Option String := none
  gitCloneDepth : Option Int := none
  gitCloneSingleBranch : Option Bool := none
  gitHTTPProxyURL : Option String := none
  gitSSHPrivateKeyPath : Option String := none
  gitSSHPrivateKeyBase64 : Option String := none
  gitUsername : Option String := none
  gitPassword : Option String := none
  ignorePaths : Option (List String) := none
  insecure : Option Bool := none
  remoteRepoBuildMode : Option Bool := none
  sslCertBase64 : Option String := none
  verbose : Option Bool := none
  workspaceFolder : Option String := none
  deriving Repr

/-- One optional-attribute block of `optionsFromDataModel`: when present,
record the env name in providerOpts and set the option. -/
def optStep (name : String) (f : OptField) (w : Option FieldVal)
    (acc : List String × Options) : List String × Options :=
  match w with
  | some v => (acc.1 ++ [name], Options.setField acc.2 f v)
  | none => acc

/-- The remote_repo_build_mode block: defaults to true when absent, with
implicit provenance (not recorded in providerOpts). -/
def remoteRepoStep (cfg : CachedImageResourceModel)
    (acc : List String × Options) : List String × Options :=
  match cfg.remoteRepoBuildMode with
  | none => (acc.1, Options.setField acc.2 .remoteRepoBuildMode (.b true))
  | some b =>
    (acc.1 ++ ["ENVBUILDER_REMOTE_REPO_BUILD_MODE"],
     Options.setField acc.2 .remoteRepoBuildMode (.b b))

/-- The sequence of optional-attribute blocks of `optionsFromDataModel`, in
source order (build secrets are converted from the map form to a sorted list
of KEY=VALUE strings before being set). -/
def baseSteps (cfg : CachedImageResourceModel) :
    List ((List String × Options) → (List String × Options)) :=
  [ optStep "ENVBUILDER_BASE_IMAGE_CACHE_DIR" .baseImageCacheDir
      (cfg.baseImageCacheDir.map .s)
  , optStep "ENVBUILDER_BUILD_CONTEXT_PATH" .buildContextPath
      (cfg.buildContextPath.map .s)
  , optStep "ENVBUILDER_BUILD_SECRETS" .buildSecrets
      (cfg.buildSecrets.map (fun m =>
        .l (sortStrings (m.map (fun kv => kv.1 ++ "=" ++ kv.2)))))
  , optStep "ENVBUILDER_CACHE_TTL_DAYS" .cacheTTLDays (cfg.cacheTTLDays.map .i)
  , optStep "ENVBUILDER_DEVCONTAINER_DIR" .devcontainerDir
      (cfg.devcontainerDir.map .s)
  , optStep "ENVBUILDER_DEVCONTAINER_JSON_PATH" .devcontainerJSONPath
      (cfg.devcontainerJSONPath.map .s)
  , optStep "ENVBUILDER_DOCKERFILE_PATH" .dockerfilePath
      (cfg.dockerfilePath.map .s)
  , optStep "ENVBUILDER_DOCKER_CONFIG_BASE64" .dockerConfigBase64
      (cfg.dockerConfigBase64.map .s)
  , optStep "ENVBUILDER_EXIT_ON_BUILD_FAILURE" .exitOnBuildFailure
      (cfg.exitOnBuildFailure.map .b)
  , optStep "ENVBUILDER_FALLBACK_IMAGE" .fallbackImage (cfg.fallbackImage.map .s)
  , optStep "ENVBUILDER_GIT_CLONE_DEPTH" .gitCloneDepth (cfg.gitCloneDepth.map .i)
  , optStep "ENVBUILDER_GIT_CLONE_SINGLE_BRANCH" .gitCloneSingleBranch
      (cfg.gitCloneSingleBranch.map .b)
  , optStep "ENVBUILDER_GIT_HTTP_PROXY_URL" .gitHTTPProxyURL
      (cfg.gitHTTPProxyURL.map .s)
  , optStep "ENVBUILDER_GIT_SSH_PRIVATE_KEY_PATH" .gitSSHPrivateKeyPath
      (cfg.gitSSHPrivateKeyPath.map .s)
  , optStep "ENVBUILDER_GIT_SSH_PRIVATE_KEY_BASE64" .gitSSHPrivateKeyBase64
      (cfg.gitSSHPrivateKeyBase64.map .s)
  , optStep "ENVBUILDER_GIT_USERNAME" .gitUsername (cfg.gitUsername.map .s)
  , optStep "ENVBUILDER_GIT_PASSWORD" .gitPassword (cfg.gitPassword.map .s)
  , optStep "ENVBUILDER_IGNORE_PATHS" .ignorePaths (cfg.ignorePaths.map .l)
  , optStep "ENVBUILDER_INSECURE" .insecure (cfg.insecure.map .b)
  , remoteRepoStep cfg
  , optStep "ENVBUILDER_SSL_CERT_BASE64" .sslCertBase64 (cfg.sslCertBase64.map .s)
  , optStep "ENVBUILDER_VERBOSE" .verbose (cfg.verbose.map .b)
  , optStep "ENVBUILDER_WORKSPACE_FOLDER" .workspaceFolder
      (cfg.workspaceFolder.map .s) ]

/-- The pre-override part of `optionsFromDataModel`: the immutable options
from the required attributes, then every optional-attribute block, yielding
(providerOpts, opts). -/
def baseOptions (cfg : CachedImageResourceModel) : List String × Options :=
  (baseSteps cfg).foldl (fun acc g => g acc)
    ([], { cacheRepo := cfg.cacheRepo, gitURL := cfg.gitURL })

/-- `optionsFromDataModel`: resolve the data model into an option set, apply
the extra_env overrides, then check the git-ssh private-key mutual
exclusivity. -/
def optionsFromDataModel (cfg : CachedImageResourceModel) :
    Options × List Diag :=
  let acc := baseOptions cfg
  let r := overrideOptionsFromExtraEnv acc.2 cfg.extraEnv acc.1
  let diags :=
    if r.1.gitSSHPrivateKeyPath != "" && r.1.gitSSHPrivateKeyBase64 != "" then
      r.2 ++ [⟨.error, .sshKeyMutualExclusivity⟩]
    else r.2
  (r.1, diags)

/-! ## computeEnvFromOptions and sortedKeyValues -/

/-- The first loop of `computeEnvFromOptions`: project every non-legacy
(ENVBUILDER_-prefixed) option with a non-zero stringified value into the
computed map. -/
def optionEnv (opts : Options) : List (String × String) :=
  OptField.all.foldl (fun m f =>
    if f.envName = "" then m
    else if startsWithStr f.envName "ENVBUILDER_" = false then m
    else
      let val := fieldStr (Options.getField opts f)
      if val = "" ∨ val = "false" ∨ val = "0" then m
      else envSet m f.envName val) []

/-- The second loop of `computeEnvFromOptions`: merge in extraEnv, skipping
any ENVBUILDER_-prefixed key. -/
def mergeExtraEnv (m : List (String × String))
    (extraEnv : List (String × String)) : List (String × String) :=
  extraEnv.foldl (fun m kv =>
    if startsWithStr kv.1 "ENVBUILDER_" then m else envSet m kv.1 kv.2) m

/-- `computeEnvFromOptions`: the computed environment map. -/
def computeEnvFromOptions (opts : Options)
    (extraEnv : List (String × String)) : List (String × String) :=
  mergeExtraEnv (optionEnv opts) extraEnv

/-- `sortedKeyValues`: render every map entry as "key=value" and sort the
resulting strings. -/
def sortedKeyValues (m : List (String × String)) : List String :=
  sortStrings (m.map (fun kv => kv.1 ++ "=" ++ kv.2))

/-! ## extractEnvbuilderFromImage -/

/-- Split a path on the slash character. -/
def splitSlashCs : List Char → List Char → List String
  | acc, [] => [String.mk acc.reverse]
  | acc, c :: rest =>
    if c = '/' then String.mk acc.reverse :: splitSlashCs [] rest
    else splitSlashCs (c :: acc) rest

def splitSlash (s : String) : List String := splitSlashCs [] s.data

def joinSlash : List String → String
  | [] => ""
  | [x] => x
  | x :: xs => x ++ "/" ++ joinSlash xs

/-- The element loop of Go `path.Clean`: drop empty and dot elements, resolve
dot-dot against the output stack (or keep it, when relative and nothing is
left to pop). -/
def cleanElems (rooted : Bool) : List String → List String → List String
  | acc, [] => acc.reverse
  | acc, e :: rest =>
    if e = "" ∨ e = "." then cleanElems rooted acc rest
    else if e = ".." then
      match acc with
      | [] => if rooted then cleanElems rooted [] rest
              else cleanElems rooted [".."] rest
      | a :: as =>
        if a = ".." then cleanElems rooted (".." :: a :: as) rest
        else cleanElems rooted as rest
    else cleanElems rooted (e :: acc) rest

/-- Go `filepath.Clean` (unix): lexical path cleaning. -/
def cleanPath (p : String) : String :=
  if p = "" then "."
  else
    let rooted := startsWithStr p "/"
    let core := joinSlash (cleanElems rooted [] (splitSlash p))
    if core = "" then (if rooted then "/" else ".")
    else if rooted then "/" ++ core
    else core

/-- Tar entry type flag: regular file or anything else. -/
inductive TarType
  | reg
  | other
  deriving DecidableEq, Repr

structure TarEntry where
  name : String
  typeflag : TarType
  content : String
  deriving Repr

/-- One image filesystem layer as its sequence of tar entries. -/
structure Layer where
  entries : List TarEntry
  deriving Repr

/-- The in-image path of the envbuilder binary, with the leading separator
stripped (`filepath.Clean(constants.MagicBinaryLocation)[1:]`). -/
def needleBin : String := ".envbuilder/bin/envbuilder"

/-- Whether a tar entry is the target: a regular file whose cleaned name
equals the needle. -/
def matchesNeedle (e : TarEntry) : Bool :=
  decide (e.typeflag = TarType.reg) && decide (cleanPath e.name = needleBin)

/-- The inner tar loop: content of the first matching entry of a layer. -/
def findInLayer (l : Layer) : Option String :=
  (l.entries.find? matchesNeedle).map (fun e => e.content)

/-- The layer at a given index (out-of-range reads never happen in the
loop below, which stays within the layer count). -/
def layerAt (layers : List Layer) (i : Nat) : Layer :=
  layers.getD i ⟨[]⟩

/-- The destination file's permission bits after extraction. -/
structure ExtractOk where
  content : String
  perm : Nat
  deriving DecidableEq, Repr

/-- The distinguished "binary not found in image" error. -/
inductive ExtractErr
  | binaryNotFound
  deriving DecidableEq, Repr

/-- The layer loop `for i := len(layers)-1; i >= 0; i--`, instrumented with
the list of visited layer indices: `scanLayersDown layers i` scans indices
i-1, i-2, ..., 0. -/
def scanLayersDown (layers : List Layer) :
    Nat → List Nat × Except ExtractErr ExtractOk
  | 0 => ([], .error .binaryNotFound)
  | i + 1 =>
    match findInLayer (layerAt layers i) with
    | some c => ([i], .ok ⟨c, 0o755⟩)
    | none =>
      let r := scanLayersDown layers i
      (i :: r.1, r.2)

/-- `extractEnvbuilderFromImage`: scan layers newest-first, return the first
match extracted with mode 0o755, or the distinguished not-found error;
the first component is the trace of visited layer indices. -/
def extractEnvbuilderFromImage (layers : List Layer) :
    List Nat × Except ExtractErr ExtractOk :=
  scanLayersDown layers layers.length

/-- Descending index list: `descFrom k m = [k+m-1, ..., k+1, k]`. -/
def descFrom (k : Nat) : Nat → List Nat
  | 0 => []
  | m + 1 => (k + m) :: descFrom k m

/-! ## Resource lifecycle (Create / Read of the cached-image resource) -/

/-- `uuid.Nil.String()`. -/
def uuidNil : String := "00000000-0000-0000-0000-000000000000"

/-- The result of the external cache probe (`runCacheProbe`), exposing the
digest accessor of the returned image. -/
structure ProbeImage where
  digest : Except String String

/-- A registry image manifest as seen by `getRemoteImage`. -/
structure RegImage where
  digest : Except String String

/-- The persisted resource state: the configuration plus the computed
outputs id, image, exists, env and env_map. -/
structure ResourceData where
  cfg : CachedImageResourceModel
  id : String
  image : String
  existsFlag : Bool
  env : List String
  envMap : List (String × String)

/-- `CachedImageResource.Create`, with the probe supplied as a value: returns
the saved state (none when the pass aborts without writing state) and the
diagnostics. -/
def create (cfg : CachedImageResourceModel)
    (probe : Except String ProbeImage) : Option ResourceData × List Diag :=
  let r := optionsFromDataModel cfg
  if hasError r.2 then (none, r.2)
  else
    let computedEnv := computeEnvFromOptions r.1 cfg.extraEnv
    match probe with
    | .error _ =>
      (some { cfg := cfg, id := uuidNil, image := cfg.builderImage,
              existsFlag := false, env := sortedKeyValues computedEnv,
              envMap := computedEnv },
       r.2 ++ [⟨.warning, .cachedImageNotFound⟩])
    | .ok img =>
      match img.digest with
      | .error _ => (none, r.2 ++ [⟨.error, .failedDigest⟩])
      | .ok d =>
        (some { cfg := cfg, id := d, image := cfg.cacheRepo ++ "@" ++ d,
                existsFlag := true, env := sortedKeyValues computedEnv,
                envMap := computedEnv },
         r.2)

/-- Outcome of a Read pass: abort with an error, remove the stored state
(forcing recreation), leave it untouched, or refresh it. -/
inductive ReadOutcome
  | errored (diags : List Diag)
  | removed (diags : List Diag)
  | unchanged (diags : List Diag)
  | updated (st : ResourceData) (diags : List Diag)

/-- `CachedImageResource.Read`, with the registry supplied as an oracle; the
second component counts registry calls made during the pass. -/
def read (st : ResourceData)
    (registry : String → Except String RegImage) : ReadOutcome × Nat :=
  let r := optionsFromDataModel st.cfg
  if hasError r.2 then (.errored r.2, 0)
  else
    let computedEnv := computeEnvFromOptions r.1 st.cfg.extraEnv
    let st1 : ResourceData :=
      { st with
        env := sortedKeyValues computedEnv
        envMap := computedEnv }
    if st.image == st.cfg.builderImage then
      (.removed (r.2 ++ [⟨.warning, .rerunProbe⟩]), 0)
    else
      match registry st.image with
      | .error e =>
        if containsSubstr e "MANIFEST_UNKNOWN" = false then
          (.unchanged (r.2 ++ [⟨.warning, .unableToCheckImage⟩]), 1)
        else
          (.removed (r.2 ++ [⟨.warning, .imageNotFoundRecreating⟩]), 1)
      | .ok img =>
        match img.digest with
        | .error _ => (.errored (r.2 ++ [⟨.error, .errorFetchingDigest⟩]), 1)
        | .ok d =>
          (.updated
            { st1 with
              id := d
              image := st.cfg.cacheRepo ++ "@" ++ d
              existsFlag := true } r.2, 1)

/-! ## Concrete data for the example-based claims -/

/-- The configuration of the spec's worked example: cache_repo, git_url and
extra_env set, every optional attribute absent. -/
def c2cfg : CachedImageResourceModel :=
  { builderImage := "builder"
    cacheRepo := "reg/cache"
    gitURL := "git@x/y"
    extraEnv := [("ENVBUILDER_VERBOSE", "true"), ("FOO", "bar\nbaz")] }

/-- A three-layer image whose middle layer (index 1) holds the envbuilder
binary; the newest layer (index 2) holds an unrelated file. -/
def demoLayers : List Layer :=
  [⟨[]⟩,
   ⟨[⟨".envbuilder/bin/envbuilder", .reg, "BIN"⟩]⟩,
   ⟨[⟨"other", .reg, "x"⟩]⟩]

/-- A minimal configuration with no optional attributes, for the lifecycle
witnesses. -/
def wcfg : CachedImageResourceModel :=
  { builderImage := "builder:latest"
    cacheRepo := "reg/cache"
    gitURL := "https://git.example/repo" }

/-- A previously found resource state over `wcfg`. -/
def wstate : ResourceData :=
  { cfg := wcfg
    id := "sha256:abc"
    image := "reg/cache@sha256:abc"
    existsFlag := true
    env := []
    envMap := [] }

/-- A persisted state recording a prior miss: image equals builder_image. -/
def wstateMiss : ResourceData :=
  { wstate with image := "builder:latest" }

end Envbuilder

namespace Envbuilder

/-! ### Field-access lemmas -/

theorem getField_setField_same (o : Options) (f : OptField) (w : FieldVal)
    (h : w.kindOf = f.kind) : (o.setField f w).getField f = w := by
  cases f <;> cases w <;>
    simp_all [Options.getField, Options.setField, FieldVal.kindOf, OptField.kind]

theorem getField_setField_ne (o : Options) (f f' : OptField) (w : FieldVal)
    (h : f' ≠ f) : (o.setField f' w).getField f = o.getField f := by
  cases w <;> cases f' <;> cases f <;> first | rfl | exact absurd rfl h

theorem setField_setField_list (o : Options) (f : OptField)
    (h : f.kind = OptKind.list) (a b : List String) :
    (o.setField f (.l a)).setField f (.l b) = o.setField f (.l b) := by
  cases f <;> simp_all [Options.setField, OptField.kind]

/-! ### The override loop acts by per-entry effects -/

theorem overrideOne_val (po : List String) (acc : Options × List Diag)
    (kv : String × String) :
    (overrideOne po acc kv).1 = applyEffect acc.1 (entryEffect kv) := by
  unfold overrideOne entryEffect
  cases hl : lookupOptField kv.1 with
  | none => rfl
  | some f =>
    by_cases hnov : kv.1 ∈ nonOverrideOptions
    · simp [hnov, applyEffect]
    · simp only [hnov, Bool.false_eq_true, if_false]
      cases hk : f.kind with
      | list =>
        have hget : (Options.setField acc.1 f (.l [])).getField f = .l [] :=
          getField_setField_same acc.1 f (.l []) (by simp [FieldVal.kindOf, hk])
        simp only [hk, if_true, reduceIte, hget, serpentSet, FieldVal.curList,
          List.nil_append, applyEffect]
        by_cases hv : kv.2 = "" <;>
          simp [hv, setField_setField_list acc.1 f hk]
      | str => simp [hk, serpentSet, applyEffect]
      | bool =>
        cases hb : parseGoBool kv.2 with
        | ok b => simp [hk, serpentSet, hb, Except.map, applyEffect]
        | error e => simp [hk, serpentSet, hb, Except.map, applyEffect]
      | int =>
        cases hi : parseGoInt kv.2 with
        | ok n => simp [hk, serpentSet, hi, Except.map, applyEffect]
        | error e => simp [hk, serpentSet, hi, Except.map, applyEffect]

theorem foldl_overrideOne_val (po : List String)
    (env : List (String × String)) :
    ∀ p : Options × List Diag,
      (env.foldl (overrideOne po) p).1 =
        applyEffects p.1 (env.map entryEffect) := by
  induction env with
  | nil => intro p; simp [applyEffects]
  | cons kv rest ih =>
    intro p
    have : (List.foldl (overrideOne po) p (kv :: rest)).1 =
        (List.foldl (overrideOne po) (overrideOne po p kv) rest).1 := by
      simp
    rw [this, ih]
    simp [applyEffects, overrideOne_val]

theorem entryEffect_wellKinded (kv : String × String) (f : OptField)
    (w : FieldVal) (h : entryEffect kv = some (f, w)) :
    w.kindOf = f.kind := by
  unfold entryEffect at h
  cases hl : lookupOptField kv.1 with
  | none => simp [hl] at h
  | some f' =>
    rw [hl] at h
    by_cases hnov : kv.1 ∈ nonOverrideOptions
    · simp [hnov] at h
    · simp only [hnov, Bool.false_eq_true, if_false] at h
      cases hk : f'.kind with
      | list =>
        rw [hk] at h
        simp only [Option.some.injEq, Prod.mk.injEq] at h
        obtain ⟨rfl, rfl⟩ := h
        simp [FieldVal.kindOf, hk]
      | str =>
        rw [hk] at h
        simp only [Option.some.injEq, Prod.mk.injEq] at h
        obtain ⟨rfl, rfl⟩ := h
        simp [FieldVal.kindOf, hk]
      | bool =>
        rw [hk] at h
        cases hb : parseGoBool kv.2 with
        | ok b =>
          rw [hb] at h
          simp only [Option.some.injEq, Prod.mk.injEq] at h
          obtain ⟨rfl, rfl⟩ := h
          simp [FieldVal.kindOf, hk]
        | error e => rw [hb] at h; simp at h
      | int =>
        rw [hk] at h
        cases hi : parseGoInt kv.2 with
        | ok n =>
          rw [hi] at h
          simp only [Option.some.injEq, Prod.mk.injEq] at h
          obtain ⟨rfl, rfl⟩ := h
          simp [FieldVal.kindOf, hk]
        | error e => rw [hi] at h; simp at h

theorem getField_applyEffects
    (effs : List (Option (OptField × FieldVal)))
    (hwk : ∀ e ∈ effs, ∀ f w, e = some (f, w) → w.kindOf = f.kind) :
    ∀ (o : Options) (f : OptField),
      (applyEffects o effs).getField f =
        (lastWrite effs f).getD (o.getField f) := by
  induction effs with
  | nil => intro o f; simp [applyEffects, lastWrite]
  | cons e rest ih =>
    intro o f
    have hrest : ∀ e ∈ rest, ∀ f w, e = some (f, w) → w.kindOf = f.kind :=
      fun e he => hwk e (List.mem_cons_of_mem _ he)
    have step : applyEffects o (e :: rest) = applyEffects (applyEffect o e) rest := by
      simp [applyEffects]
    rw [step, ih hrest]
    cases hlast : lastWrite rest f with
    | some w => simp [lastWrite, hlast]
    | none =>
      simp only [lastWrite, hlast, Option.getD]
      cases e with
      | none => simp [applyEffect]
      | some fw =>
        by_cases hf : fw.1 = f
        · subst hf
          have := hwk (some fw) (List.mem_cons_self _ _) fw.1 fw.2 rfl
          simp [applyEffect, getField_setField_same o fw.1 fw.2 this]
        · simp [applyEffect, hf, getField_setField_ne o f fw.1 fw.2 hf]

theorem options_ext (o o' : Options)
    (h : ∀ f, o.getField f = o'.getField f) : o = o' := by
  obtain ⟨c1, c2, c3, c4, c5, c6, c7, c8, c9, c10, c11, c12, c13, c14, c15,
    c16, c17, c18, c19, c20, c21, c22, c23, c24, c25⟩ := o
  obtain ⟨d1, d2, d3, d4, d5, d6, d7, d8, d9, d10, d11, d12, d13, d14, d15,
    d16, d17, d18, d19, d20, d21, d22, d23, d24, d25⟩ := o'
  simp only [Options.mk.injEq]
  exact ⟨FieldVal.s.inj (h .cacheRepo), FieldVal.s.inj (h .gitURL),
    FieldVal.s.inj (h .baseImageCacheDir), FieldVal.s.inj (h .buildContextPath),
    FieldVal.l.inj (h .buildSecrets), FieldVal.i.inj (h .cacheTTLDays),
    FieldVal.s.inj (h .devcontainerDir),
    FieldVal.s.inj (h .devcontainerJSONPath),
    FieldVal.s.inj (h .dockerfilePath),
    FieldVal.s.inj (h .dockerConfigBase64),
    FieldVal.b.inj (h .exitOnBuildFailure), FieldVal.s.inj (h .fallbackImage),
    FieldVal.i.inj (h .gitCloneDepth),
    FieldVal.b.inj (h .gitCloneSingleBranch),
    FieldVal.s.inj (h .gitHTTPProxyURL),
    FieldVal.s.inj (h .gitSSHPrivateKeyPath),
    FieldVal.s.inj (h .gitSSHPrivateKeyBase64),
    FieldVal.s.inj (h .gitUsername), FieldVal.s.inj (h .gitPassword),
    FieldVal.l.inj (h .ignorePaths), FieldVal.b.inj (h .insecure),
    FieldVal.b.inj (h .remoteRepoBuildMode),
    FieldVal.s.inj (h .sslCertBase64), FieldVal.b.inj (h .verbose),
    FieldVal.s.inj (h .workspaceFolder)⟩

/-- Claim C1: applying an override map to an option set twice yields the same
option set as applying it once, for every override map, provider-set record
and starting option set; in particular an override of the list-typed
ENVBUILDER_IGNORE_PATHS option resets the list before parsing, so its result
does not depend on (or accumulate onto) the previous list value. -/
theorem C1_override_idempotent (po : List String)
    (env : List (String × String)) (opts : Options) :
    (overrideOptionsFromExtraEnv
      (overrideOptionsFromExtraEnv opts env po).1 env po).1 =
      (overrideOptionsFromExtraEnv opts env po).1 ∧
    ∀ v, (overrideOne po (opts, []) ("ENVBUILDER_IGNORE_PATHS", v)).1.ignorePaths =
      (if v = "" then [] else splitComma v) := by
  constructor
  · have hwk : ∀ e ∈ env.map entryEffect, ∀ f w, e = some (f, w) →
        w.kindOf = f.kind := by
      intro e he f w hew
      obtain ⟨kv, _, rfl⟩ := List.mem_map.mp he
      exact entryEffect_wellKinded kv f w hew
    unfold overrideOptionsFromExtraEnv
    rw [foldl_overrideOne_val, foldl_overrideOne_val]
    apply options_ext
    intro f
    rw [getField_applyEffects _ hwk, getField_applyEffects _ hwk]
    cases hlast : lastWrite (env.map entryEffect) f <;> simp [hlast]
  · intro v
    rw [overrideOne_val]
    have he : entryEffect ("ENVBUILDER_IGNORE_PATHS", v) =
        some (.ignorePaths, .l (if v = "" then [] else splitComma v)) := by
      by_cases hv : v = "" <;> simp [entryEffect, lookupOptField, hv,
        nonOverrideOptions, OptField.kind]
    rw [he]
    by_cases hv : v = "" <;>
      simp [hv, applyEffect, Options.setField]

/-! ### Immutable options: inversion and preservation lemmas -/

theorem lookupOptField_inv (k : String) (f : OptField)
    (h : lookupOptField k = some f) : k = f.envName := by
  unfold lookupOptField at h
  by_cases h1 : k = "ENVBUILDER_CACHE_REPO"
  · rw [if_pos h1] at h
    have hf := Option.some.inj h
    subst hf
    exact h1
  rw [if_neg h1] at h
  by_cases h2 : k = "ENVBUILDER_GIT_URL"
  · rw [if_pos h2] at h
    have hf := Option.some.inj h
    subst hf
    exact h2
  rw [if_neg h2] at h
  by_cases h3 : k = "ENVBUILDER_BASE_IMAGE_CACHE_DIR"
  · rw [if_pos h3] at h
    have hf := Option.some.inj h
    subst hf
    exact h3
  rw [if_neg h3] at h
  by_cases h4 : k = "ENVBUILDER_BUILD_CONTEXT_PATH"
  · rw [if_pos h4] at h
    have hf := Option.some.inj h
    subst hf
    exact h4
  rw [if_neg h4] at h
  by_cases h5 : k = "ENVBUILDER_BUILD_SECRETS"
  · rw [if_pos h5] at h
    have hf := Option.some.inj h
    subst hf
    exact h5
  rw [if_neg h5] at h
  by_cases h6 : k = "ENVBUILDER_CACHE_TTL_DAYS"
  · rw [if_pos h6] at h
    have hf := Option.some.inj h
    subst hf
    exact h6
  rw [if_neg h6] at h
  by_cases h7 : k = "ENVBUILDER_DEVCONTAINER_DIR"
  · rw [if_pos h7] at h
    have hf := Option.some.inj h
    subst hf
    exact h7
  rw [if_neg h7] at h
  by_cases h8 : k = "ENVBUILDER_DEVCONTAINER_JSON_PATH"
  · rw [if_pos h8] at h
    have hf := Option.some.inj h
    subst hf
    exact h8
  rw [if_neg h8] at h
  by_cases h9 : k = "ENVBUILDER_DOCKERFILE_PATH"
  · rw [if_pos h9] at h
    have hf := Option.some.inj h
    subst hf
    exact h9
  rw [if_neg h9] at h
  by_cases h10 : k = "ENVBUILDER_DOCKER_CONFIG_BASE64"
  · rw [if_pos h10] at h
    have hf := Option.some.inj h
    subst hf
    exact h10
  rw [if_neg h10] at h
  by_cases h11 : k = "ENVBUILDER_EXIT_ON_BUILD_FAILURE"
  · rw [if_pos h11] at h
    have hf := Option.some.inj h
    subst hf
    exact h11
  rw [if_neg h11] at h
  by_cases h12 : k = "ENVBUILDER_FALLBACK_IMAGE"
  · rw [if_pos h12] at h
    have hf := Option.some.inj h
    subst hf
    exact h12
  rw [if_neg h12] at h
  by_cases h13 : k = "ENVBUILDER_GIT_CLONE_DEPTH"
  · rw [if_pos h13] at h
    have hf := Option.some.inj h
    subst hf
    exact h13
  rw [if_neg h13] at h
  by_cases h14 : k = "ENVBUILDER_GIT_CLONE_SINGLE_BRANCH"
  · rw [if_pos h14] at h
    have hf := Option.some.inj h
    subst hf
    exact h14
  rw [if_neg h14] at h
  by_cases h15 : k = "ENVBUILDER_GIT_HTTP_PROXY_URL"
  · rw [if_pos h15] at h
    have hf := Option.some.inj h
    subst hf
    exact h15
  rw [if_neg h15] at h
  by_cases h16 : k = "ENVBUILDER_GIT_SSH_PRIVATE_KEY_PATH"
  · rw [if_pos h16] at h
    have hf := Option.some.inj h
    subst hf
    exact h16
  rw [if_neg h16] at h
  by_cases h17 : k = "ENVBUILDER_GIT_SSH_PRIVATE_KEY_BASE64"
  · rw [if_pos h17] at h
    have hf := Option.some.inj h
    subst hf
    exact h17
  rw [if_neg h17] at h
  by_cases h18 : k = "ENVBUILDER_GIT_USERNAME"
  · rw [if_pos h18] at h
    have hf := Option.some.inj h
    subst hf
    exact h18
  rw [if_neg h18] at h
  by_cases h19 : k = "ENVBUILDER_GIT_PASSWORD"
  · rw [if_pos h19] at h
    have hf := Option.some.inj h
    subst hf
    exact h19
  rw [if_neg h19] at h
  by_cases h20 : k = "ENVBUILDER_IGNORE_PATHS"
  · rw [if_pos h20] at h
    have hf := Option.some.inj h
    subst hf
    exact h20
  rw [if_neg h20] at h
  by_cases h21 : k = "ENVBUILDER_INSECURE"
  · rw [if_pos h21] at h
    have hf := Option.some.inj h
    subst hf
    exact h21
  rw [if_neg h21] at h
  by_cases h22 : k = "ENVBUILDER_REMOTE_REPO_BUILD_MODE"
  · rw [if_pos h22] at h
    have hf := Option.some.inj h
    subst hf
    exact h22
  rw [if_neg h22] at h
  by_cases h23 : k = "ENVBUILDER_SSL_CERT_BASE64"
  · rw [if_pos h23] at h
    have hf := Option.some.inj h
    subst hf
    exact h23
  rw [if_neg h23] at h
  by_cases h24 : k = "ENVBUILDER_VERBOSE"
  · rw [if_pos h24] at h
    have hf := Option.some.inj h
    subst hf
    exact h24
  rw [if_neg h24] at h
  by_cases h25 : k = "ENVBUILDER_WORKSPACE_FOLDER"
  · rw [if_pos h25] at h
    have hf := Option.some.inj h
    subst hf
    exact h25
  rw [if_neg h25] at h
  exact Option.noConfusion h

theorem lookupOptField_cacheRepo_inv (k : String)
    (h : lookupOptField k = some OptField.cacheRepo) :
    k = "ENVBUILDER_CACHE_REPO" :=
  lookupOptField_inv k OptField.cacheRepo h

theorem lookupOptField_gitURL_inv (k : String)
    (h : lookupOptField k = some OptField.gitURL) :
    k = "ENVBUILDER_GIT_URL" :=
  lookupOptField_inv k OptField.gitURL h

theorem entryEffect_not_required (kv : String × String) (f : OptField)
    (w : FieldVal) (h : entryEffect kv = some (f, w)) :
    f ≠ OptField.cacheRepo ∧ f ≠ OptField.gitURL := by
  unfold entryEffect at h
  cases hl : lookupOptField kv.1 with
  | none => simp [hl] at h
  | some f' =>
    rw [hl] at h
    by_cases hnov : kv.1 ∈ nonOverrideOptions
    · simp [hnov] at h
    · simp only [hnov, if_false] at h
      have hff : f = f' := by
        cases hk : f'.kind <;> rw [hk] at h
        case str =>
          simp only [Option.some.injEq, Prod.mk.injEq] at h
          exact h.1.symm
        case list =>
          simp only [Option.some.injEq, Prod.mk.injEq] at h
          exact h.1.symm
        case bool =>
          cases hb : parseGoBool kv.2 <;> rw [hb] at h
          case ok =>
            simp only [Option.some.injEq, Prod.mk.injEq] at h
            exact h.1.symm
          case error => simp at h
        case int =>
          cases hi : parseGoInt kv.2 <;> rw [hi] at h
          case ok =>
            simp only [Option.some.injEq, Prod.mk.injEq] at h
            exact h.1.symm
          case error => simp at h
      subst hff
      constructor
      · intro hc
        subst hc
        have := lookupOptField_cacheRepo_inv kv.1 hl
        rw [this] at hnov
        exact hnov (by simp [nonOverrideOptions])
      · intro hc
        subst hc
        have := lookupOptField_gitURL_inv kv.1 hl
        rw [this] at hnov
        exact hnov (by simp [nonOverrideOptions])

theorem setField_cacheRepo (o : Options) (f : OptField) (w : FieldVal)
    (h : f ≠ OptField.cacheRepo) :
    (o.setField f w).cacheRepo = o.cacheRepo := by
  cases f <;> cases w <;> first | rfl | exact absurd rfl h

theorem setField_gitURL (o : Options) (f : OptField) (w : FieldVal)
    (h : f ≠ OptField.gitURL) :
    (o.setField f w).gitURL = o.gitURL := by
  cases f <;> cases w <;> first | rfl | exact absurd rfl h

theorem applyEffects_cacheRepo (effs : List (Option (OptField × FieldVal)))
    (h : ∀ e ∈ effs, ∀ f w, e = some (f, w) → f ≠ OptField.cacheRepo) :
    ∀ o : Options, (applyEffects o effs).cacheRepo = o.cacheRepo := by
  induction effs with
  | nil => intro o; rfl
  | cons e rest ih =>
    intro o
    have step : applyEffects o (e :: rest) = applyEffects (applyEffect o e) rest := by
      simp [applyEffects]
    rw [step, ih (fun e he => h e (List.mem_cons_of_mem _ he))]
    cases e with
    | none => rfl
    | some fw =>
      exact setField_cacheRepo o fw.1 fw.2
        (h (some fw) (List.mem_cons_self _ _) fw.1 fw.2 rfl)

theorem applyEffects_gitURL (effs : List (Option (OptField × FieldVal)))
    (h : ∀ e ∈ effs, ∀ f w, e = some (f, w) → f ≠ OptField.gitURL) :
    ∀ o : Options, (applyEffects o effs).gitURL = o.gitURL := by
  induction effs with
  | nil => intro o; rfl
  | cons e rest ih =>
    intro o
    have step : applyEffects o (e :: rest) = applyEffects (applyEffect o e) rest := by
      simp [applyEffects]
    rw [step, ih (fun e he => h e (List.mem_cons_of_mem _ he))]
    cases e with
    | none => rfl
    | some fw =>
      exact setField_gitURL o fw.1 fw.2
        (h (some fw) (List.mem_cons_self _ _) fw.1 fw.2 rfl)

theorem overrideFold_cacheRepo (opts : Options)
    (env : List (String × String)) (po : List String) :
    (overrideOptionsFromExtraEnv opts env po).1.cacheRepo = opts.cacheRepo := by
  unfold overrideOptionsFromExtraEnv
  rw [foldl_overrideOne_val]
  apply applyEffects_cacheRepo
  intro e he f w hew
  obtain ⟨kv, _, rfl⟩ := List.mem_map.mp he
  exact (entryEffect_not_required kv f w hew).1

theorem overrideFold_gitURL (opts : Options)
    (env : List (String × String)) (po : List String) :
    (overrideOptionsFromExtraEnv opts env po).1.gitURL = opts.gitURL := by
  unfold overrideOptionsFromExtraEnv
  rw [foldl_overrideOne_val]
  apply applyEffects_gitURL
  intro e he f w hew
  obtain ⟨kv, _, rfl⟩ := List.mem_map.mp he
  exact (entryEffect_not_required kv f w hew).2

theorem optStep_cacheRepo (n : String) (f : OptField) (w : Option FieldVal)
    (acc : List String × Options) (h : f ≠ OptField.cacheRepo) :
    ((optStep n f w acc).2).cacheRepo = acc.2.cacheRepo := by
  cases w with
  | none => rfl
  | some v => exact setField_cacheRepo acc.2 f v h

theorem optStep_gitURL (n : String) (f : OptField) (w : Option FieldVal)
    (acc : List String × Options) (h : f ≠ OptField.gitURL) :
    ((optStep n f w acc).2).gitURL = acc.2.gitURL := by
  cases w with
  | none => rfl
  | some v => exact setField_gitURL acc.2 f v h

theorem remoteRepoStep_cacheRepo (cfg : CachedImageResourceModel)
    (acc : List String × Options) :
    ((remoteRepoStep cfg acc).2).cacheRepo = acc.2.cacheRepo := by
  cases hb : cfg.remoteRepoBuildMode with
  | none =>
    simp only [remoteRepoStep, hb]
    exact setField_cacheRepo acc.2 OptField.remoteRepoBuildMode
      (FieldVal.b true) (by simp)
  | some b =>
    simp only [remoteRepoStep, hb]
    exact setField_cacheRepo acc.2 OptField.remoteRepoBuildMode
      (FieldVal.b b) (by simp)

theorem remoteRepoStep_gitURL (cfg : CachedImageResourceModel)
    (acc : List String × Options) :
    ((remoteRepoStep cfg acc).2).gitURL = acc.2.gitURL := by
  cases hb : cfg.remoteRepoBuildMode with
  | none =>
    simp only [remoteRepoStep, hb]
    exact setField_gitURL acc.2 OptField.remoteRepoBuildMode
      (FieldVal.b true) (by simp)
  | some b =>
    simp only [remoteRepoStep, hb]
    exact setField_gitURL acc.2 OptField.remoteRepoBuildMode
      (FieldVal.b b) (by simp)

theorem baseSteps_cacheRepo (cfg : CachedImageResourceModel) :
    ∀ g ∈ baseSteps cfg, ∀ acc, ((g acc).2).cacheRepo = acc.2.cacheRepo := by
  intro g hg
  simp only [baseSteps, List.mem_cons, List.not_mem_nil, or_false] at hg
  rcases hg with rfl | rfl | rfl | rfl | rfl | rfl | rfl | rfl | rfl | rfl |
    rfl | rfl | rfl | rfl | rfl | rfl | rfl | rfl | rfl | rfl | rfl | rfl | rfl <;>
    intro acc <;>
    first
      | exact optStep_cacheRepo _ _ _ acc (by simp)
      | exact remoteRepoStep_cacheRepo cfg acc

theorem baseSteps_gitURL (cfg : CachedImageResourceModel) :
    ∀ g ∈ baseSteps cfg, ∀ acc, ((g acc).2).gitURL = acc.2.gitURL := by
  intro g hg
  simp only [baseSteps, List.mem_cons, List.not_mem_nil, or_false] at hg
  rcases hg with rfl | rfl | rfl | rfl | rfl | rfl | rfl | rfl | rfl | rfl |
    rfl | rfl | rfl | rfl | rfl | rfl | rfl | rfl | rfl | rfl | rfl | rfl | rfl <;>
    intro acc <;>
    first
      | exact optStep_gitURL _ _ _ acc (by simp)
      | exact remoteRepoStep_gitURL cfg acc

theorem stepsFold_preserve
    (pr : (List String × Options) → String)
    (gs : List ((List String × Options) → (List String × Options)))
    (h : ∀ g ∈ gs, ∀ acc, pr (g acc) = pr acc) :
    ∀ acc, pr (gs.foldl (fun a g => g a) acc) = pr acc := by
  induction gs with
  | nil => intro acc; rfl
  | cons g rest ih =>
    intro acc
    have step : (g :: rest).foldl (fun a g => g a) acc =
        rest.foldl (fun a g => g a) (g acc) := by simp
    rw [step, ih (fun g hg => h g (List.mem_cons_of_mem _ hg)),
      h g (List.mem_cons_self _ _)]

theorem baseOptions_cacheRepo (cfg : CachedImageResourceModel) :
    (baseOptions cfg).2.cacheRepo = cfg.cacheRepo := by
  unfold baseOptions
  exact stepsFold_preserve (fun acc => acc.2.cacheRepo) (baseSteps cfg)
    (baseSteps_cacheRepo cfg) _

theorem baseOptions_gitURL (cfg : CachedImageResourceModel) :
    (baseOptions cfg).2.gitURL = cfg.gitURL := by
  unfold baseOptions
  exact stepsFold_preserve (fun acc => acc.2.gitURL) (baseSteps cfg)
    (baseSteps_gitURL cfg) _

/-- Claim C3: processing an override entry for an immutable option
(ENVBUILDER_CACHE_REPO or ENVBUILDER_GIT_URL) emits exactly one
warning-level diagnostic and leaves the option set unchanged; moreover the
whole override pass never changes cache_repo or git_url, and the resolved
option set always carries them from the Configuration. -/
theorem C3_immutable_options (po : List String) (acc : Options × List Diag)
    (k v : String)
    (hk : k = "ENVBUILDER_CACHE_REPO" ∨ k = "ENVBUILDER_GIT_URL") :
    overrideOne po acc (k, v) =
      (acc.1, acc.2 ++ [⟨.warning, .cannotOverrideRequired k⟩]) ∧
    (∀ (opts : Options) (env : List (String × String)),
      (overrideOptionsFromExtraEnv opts env po).1.cacheRepo = opts.cacheRepo ∧
      (overrideOptionsFromExtraEnv opts env po).1.gitURL = opts.gitURL) ∧
    (∀ cfg : CachedImageResourceModel,
      (optionsFromDataModel cfg).1.cacheRepo = cfg.cacheRepo ∧
      (optionsFromDataModel cfg).1.gitURL = cfg.gitURL) := by
  refine ⟨?_, ?_, ?_⟩
  · rcases hk with rfl | rfl <;> rfl
  · intro opts env
    exact ⟨overrideFold_cacheRepo opts env po, overrideFold_gitURL opts env po⟩
  · intro cfg
    constructor
    · show (overrideOptionsFromExtraEnv (baseOptions cfg).2 cfg.extraEnv
        (baseOptions cfg).1).1.cacheRepo = cfg.cacheRepo
      rw [overrideFold_cacheRepo, baseOptions_cacheRepo]
    · show (overrideOptionsFromExtraEnv (baseOptions cfg).2 cfg.extraEnv
        (baseOptions cfg).1).1.gitURL = cfg.gitURL
      rw [overrideFold_gitURL, baseOptions_gitURL]

/-- Witness for C3_immutable_options at a concrete input. -/
theorem C3_immutable_options_witness :
    overrideOne [] ({}, []) ("ENVBUILDER_CACHE_REPO", "x") =
      ({}, [⟨.warning, .cannotOverrideRequired "ENVBUILDER_CACHE_REPO"⟩]) :=
  (C3_immutable_options [] ({}, []) "ENVBUILDER_CACHE_REPO" "x"
    (Or.inl rfl)).1

/-! ### Diagnostics of the override loop -/

theorem countDiag_append (ds ds' : List Diag) (d : Diag) :
    countDiag (ds ++ ds') d = countDiag ds d + countDiag ds' d := by
  induction ds with
  | nil => simp [countDiag]
  | cons x rest ih => simp [countDiag, ih]; omega

theorem overrideOne_snd (po : List String) (acc : Options × List Diag)
    (kv : String × String) :
    (overrideOne po acc kv).2 = acc.2 ++ overrideOneDiags po kv := by
  unfold overrideOne overrideOneDiags
  cases hl : lookupOptField kv.1 with
  | none => simp
  | some f =>
    by_cases hnov : kv.1 ∈ nonOverrideOptions
    · simp [hnov]
    · simp only [hnov, if_false]
      cases hk : f.kind with
      | list =>
        by_cases hpo : kv.1 ∈ po <;> simp [hpo, serpentSet]
      | str =>
        by_cases hpo : kv.1 ∈ po <;> simp [hpo, serpentSet]
      | bool =>
        cases hb : parseGoBool kv.2 with
        | ok b =>
          by_cases hpo : kv.1 ∈ po <;> simp [hpo, serpentSet, hb, Except.map]
        | error e =>
          by_cases hpo : kv.1 ∈ po <;> simp [hpo, serpentSet, hb, Except.map]
      | int =>
        cases hi : parseGoInt kv.2 with
        | ok n =>
          by_cases hpo : kv.1 ∈ po <;> simp [hpo, serpentSet, hi, Except.map]
        | error e =>
          by_cases hpo : kv.1 ∈ po <;> simp [hpo, serpentSet, hi, Except.map]

theorem overrideOneDiags_no_ssh (po : List String) (kv : String × String) :
    countDiag (overrideOneDiags po kv)
      ⟨.error, .sshKeyMutualExclusivity⟩ = 0 := by
  unfold overrideOneDiags
  cases hl : lookupOptField kv.1 with
  | none => rfl
  | some f =>
    by_cases hnov : kv.1 ∈ nonOverrideOptions
    · simp [hnov, countDiag]
    · simp only [hnov, if_false]
      cases hk : f.kind with
      | list => by_cases hpo : kv.1 ∈ po <;> simp [hpo, countDiag]
      | str => by_cases hpo : kv.1 ∈ po <;> simp [hpo, countDiag]
      | bool =>
        cases hb : parseGoBool kv.2 <;>
          by_cases hpo : kv.1 ∈ po <;>
          simp [hpo, countDiag, countDiag_append]
      | int =>
        cases hi : parseGoInt kv.2 <;>
          by_cases hpo : kv.1 ∈ po <;>
          simp [hpo, countDiag, countDiag_append]

theorem overrideFold_no_ssh (po : List String)
    (env : List (String × String)) :
    ∀ acc : Options × List Diag,
      countDiag ((env.foldl (overrideOne po) acc).2)
          ⟨.error, .sshKeyMutualExclusivity⟩ =
        countDiag acc.2 ⟨.error, .sshKeyMutualExclusivity⟩ := by
  induction env with
  | nil => intro acc; rfl
  | cons kv rest ih =>
    intro acc
    have step : (kv :: rest).foldl (overrideOne po) acc =
        rest.foldl (overrideOne po) (overrideOne po acc kv) := by simp
    rw [step, ih, overrideOne_snd, countDiag_append,
      overrideOneDiags_no_ssh]
    omega

/-- Claim C4: the resolved option set carries exactly one error-level
mutual-exclusivity diagnostic when both git-ssh private-key options end up
non-empty after override processing, and none otherwise. -/
theorem C4_ssh_mutual_exclusivity (cfg : CachedImageResourceModel) :
    countDiag (optionsFromDataModel cfg).2
        ⟨.error, .sshKeyMutualExclusivity⟩ =
      (if (optionsFromDataModel cfg).1.gitSSHPrivateKeyPath != "" &&
          (optionsFromDataModel cfg).1.gitSSHPrivateKeyBase64 != "" then 1
       else 0) := by
  have hz : countDiag
      ((overrideOptionsFromExtraEnv (baseOptions cfg).2 cfg.extraEnv
        (baseOptions cfg).1).2) ⟨.error, .sshKeyMutualExclusivity⟩ = 0 := by
    unfold overrideOptionsFromExtraEnv
    rw [overrideFold_no_ssh]
    rfl
  show countDiag
      (if (overrideOptionsFromExtraEnv (baseOptions cfg).2 cfg.extraEnv
            (baseOptions cfg).1).1.gitSSHPrivateKeyPath != "" &&
          (overrideOptionsFromExtraEnv (baseOptions cfg).2 cfg.extraEnv
            (baseOptions cfg).1).1.gitSSHPrivateKeyBase64 != "" then
        (overrideOptionsFromExtraEnv (baseOptions cfg).2 cfg.extraEnv
          (baseOptions cfg).1).2 ++ [⟨.error, .sshKeyMutualExclusivity⟩]
      else
        (overrideOptionsFromExtraEnv (baseOptions cfg).2 cfg.extraEnv
          (baseOptions cfg).1).2)
      ⟨.error, .sshKeyMutualExclusivity⟩ =
    (if (overrideOptionsFromExtraEnv (baseOptions cfg).2 cfg.extraEnv
          (baseOptions cfg).1).1.gitSSHPrivateKeyPath != "" &&
        (overrideOptionsFromExtraEnv (baseOptions cfg).2 cfg.extraEnv
          (baseOptions cfg).1).1.gitSSHPrivateKeyBase64 != "" then 1
     else 0)
  split_ifs with hc
  · rw [countDiag_append, hz]
    simp [countDiag]
  · exact hz

/-- Claim C2: resolving the Configuration with cache_repo "reg/cache",
git_url "git@x/y" and extra_env mapping ENVBUILDER_VERBOSE to "true" and FOO
to "bar\nbaz" (all other optional fields absent), applying the overrides and
computing the environment yields exactly the five-entry ordered env list,
with the remote-repo-build-mode default of true injected and the FOO
pass-through preserved verbatim including its embedded newline. -/
theorem C2_example_env :
    sortedKeyValues
      (computeEnvFromOptions (optionsFromDataModel c2cfg).1 c2cfg.extraEnv) =
    ["ENVBUILDER_CACHE_REPO=reg/cache", "ENVBUILDER_GIT_URL=git@x/y",
     "ENVBUILDER_REMOTE_REPO_BUILD_MODE=true", "ENVBUILDER_VERBOSE=true",
     "FOO=bar\nbaz"] := by
  rfl

/-! ### Lemmas about the association-list map operations -/

theorem envLookup_envSet_same (m : List (String × String)) (k v : String) :
    envLookup (envSet m k v) k = some v := by
  induction m with
  | nil => simp [envSet, envLookup]
  | cons kv rest ih =>
    by_cases h : kv.1 = k
    · simp [envSet, envLookup, h]
    · simp [envSet, envLookup, h, ih]

theorem envLookup_envSet_ne (m : List (String × String)) (k' v k : String)
    (h : k' ≠ k) : envLookup (envSet m k' v) k = envLookup m k := by
  induction m with
  | nil => simp [envSet, envLookup, h]
  | cons kv rest ih =>
    by_cases hkv : kv.1 = k'
    · simp [envSet, envLookup, hkv, h]
    · simp only [envSet, hkv, if_false, envLookup]
      by_cases hk : kv.1 = k
      · simp [hk]
      · simp [hk, ih]

/-- The merge loop gives a non-option key its last override value, and falls
back to the option-derived map only when the key never occurs. -/
theorem envLookup_mergeExtraEnv (extraEnv : List (String × String))
    (k : String) (hk : startsWithStr k "ENVBUILDER_" = false) :
    ∀ m, envLookup (mergeExtraEnv m extraEnv) k =
      match lookupLast extraEnv k with
      | some v => some v
      | none => envLookup m k := by
  induction extraEnv with
  | nil => intro m; simp [mergeExtraEnv, lookupLast]
  | cons kv rest ih =>
    intro m
    have step : mergeExtraEnv m (kv :: rest) =
        mergeExtraEnv
          (if startsWithStr kv.1 "ENVBUILDER_" then m else envSet m kv.1 kv.2)
          rest := by
      simp [mergeExtraEnv]
    rw [step, ih]
    cases hlast : lookupLast rest k with
    | some v => simp [lookupLast, hlast]
    | none =>
      simp only [lookupLast, hlast]
      by_cases heq : kv.1 = k
      · subst heq
        simp [hk, envLookup_envSet_same]
      · by_cases hpfx : startsWithStr kv.1 "ENVBUILDER_"
        · simp [hpfx, heq]
        · simp [hpfx, heq, envLookup_envSet_ne _ _ _ _ heq]

/-- Claim C9 (amended): every override-map entry whose key does not carry the
ENVBUILDER_ option prefix is passed through verbatim into the computed
environment, and always wins over any option-derived entry of the same key
(the result is its override value regardless of the option set). -/
theorem C9_passthrough_wins (opts : Options)
    (extraEnv : List (String × String)) (k v : String)
    (hk : startsWithStr k "ENVBUILDER_" = false)
    (hv : lookupLast extraEnv k = some v) :
    envLookup (computeEnvFromOptions opts extraEnv) k = some v := by
  unfold computeEnvFromOptions
  rw [envLookup_mergeExtraEnv extraEnv k hk (optionEnv opts), hv]

/-- Witness for C9_passthrough_wins at a concrete input. -/
theorem C9_passthrough_wins_witness :
    envLookup (computeEnvFromOptions {} [("FOO", "bar")]) "FOO" = some "bar" :=
  C9_passthrough_wins {} [("FOO", "bar")] "FOO" "bar" (by rfl) (by rfl)

/-- Claim C9 (counterexample): ENVBUILDER_BOGUS is not a recognized option
name, yet the computed environment does not contain it — an
ENVBUILDER_-prefixed unknown key is dropped, not passed through, refuting
the claim as stated. -/
theorem C9_counterexample :
    lookupOptField "ENVBUILDER_BOGUS" = none ∧
    lookupLast [("ENVBUILDER_BOGUS", "x")] "ENVBUILDER_BOGUS" = some "x" ∧
    envLookup (computeEnvFromOptions {} [("ENVBUILDER_BOGUS", "x")])
      "ENVBUILDER_BOGUS" = none := by
  refine ⟨by rfl, by rfl, by rfl⟩

/-- Claim C10 (counter-evaluation): on the computed environment map mapping
FOO to "x" and FOO2 to "y", sortedKeyValues orders the pair strings as
["FOO2=y", "FOO=x"], although FOO is lexicographically smaller than FOO2 as
a key: the list is sorted by the whole "key=value" string, not by key, so
the ordered-list form is not always sorted lexicographically by key. -/
theorem C10_not_sorted_by_key :
    sortedKeyValues [("FOO", "x"), ("FOO2", "y")] = ["FOO2=y", "FOO=x"] ∧
    ltStr "FOO" "FOO2" = true := by
  constructor
  · rfl
  · rfl

/-! ### The layer scan of the binary locator -/

theorem scanLayersDown_found (layers : List Layer) (k : Nat) (c : String)
    (hfound : findInLayer (layerAt layers k) = some c) :
    ∀ i, k < i →
      (∀ j, k < j → j < i → findInLayer (layerAt layers j) = none) →
      scanLayersDown layers i = (descFrom k (i - k), .ok ⟨c, 0o755⟩) := by
  intro i
  induction i with
  | zero => intro hk; exact absurd hk (Nat.not_lt_zero k)
  | succ i ih =>
    intro hk hnone
    rcases Nat.lt_succ_iff_lt_or_eq.mp hk with hki | hki
    · have hi : findInLayer (layerAt layers i) = none :=
        hnone i hki (Nat.lt_succ_self i)
      have h1 : i + 1 - k = (i - k) + 1 := by omega
      have h2 : k + (i - k) = i := by omega
      rw [h1]
      simp only [scanLayersDown, hi, descFrom, h2]
      rw [ih hki (fun j hj hji => hnone j hj (Nat.lt_succ_of_lt hji))]
    · subst hki
      have h1 : k + 1 - k = 1 := by omega
      rw [h1]
      simp [scanLayersDown, hfound, descFrom]

theorem scanLayersDown_none (layers : List Layer) :
    ∀ i, (∀ j, j < i → findInLayer (layerAt layers j) = none) →
      scanLayersDown layers i = (descFrom 0 i, .error .binaryNotFound) := by
  intro i
  induction i with
  | zero => intro _; rfl
  | succ i ih =>
    intro hnone
    have hi : findInLayer (layerAt layers i) = none :=
      hnone i (Nat.lt_succ_self i)
    simp only [scanLayersDown, hi, descFrom, Nat.zero_add]
    rw [ih (fun j hj => hnone j (Nat.lt_succ_of_lt hj))]

/-- Claim C5: when exactly one layer k (0-indexed from oldest) of an N-layer
image holds the target path as a regular file, the binary locator visits
layers N-1, N-2, ..., k and no earlier layers, and returns that file's
contents with the destination mode set to the executable bits 0o755; when no
layer holds the target, it visits every layer and fails with the
distinguished binary-not-found error. -/
theorem C5_binary_locator :
    (∀ (layers : List Layer) (k : Nat) (c : String), k < layers.length →
      (∀ j, j < layers.length → j ≠ k →
        findInLayer (layerAt layers j) = none) →
      findInLayer (layerAt layers k) = some c →
      extractEnvbuilderFromImage layers =
        (descFrom k (layers.length - k), .ok ⟨c, 0o755⟩)) ∧
    (∀ layers : List Layer,
      (∀ j, j < layers.length → findInLayer (layerAt layers j) = none) →
      extractEnvbuilderFromImage layers =
        (descFrom 0 layers.length, .error .binaryNotFound)) := by
  constructor
  · intro layers k c hk hnone hfound
    exact scanLayersDown_found layers k c hfound layers.length hk
      (fun j hj hji => hnone j hji (Nat.ne_of_gt hj))
  · intro layers hnone
    exact scanLayersDown_none layers layers.length hnone

/-- Witness for C5_binary_locator: on the three-layer demo image with the
binary only in layer 1, the scan visits layers 2 then 1 and returns the
binary with mode 0o755. -/
theorem C5_binary_locator_witness :
    extractEnvbuilderFromImage demoLayers = ([2, 1], .ok ⟨"BIN", 0o755⟩) := by
  have h := C5_binary_locator.1 demoLayers 1 "BIN" (by decide) (by decide)
    (by rfl)
  simpa [descFrom] using h

/-! ### Lifecycle claims -/

/-- Claim C6: a state written by Create with existence false always records
the builder image as the resolved image; a Read pass over a state whose
stored image equals the builder image removes the state without any registry
call; and a Read pass never refreshes a state to existence false. -/
theorem C6_miss_state_invariant :
    (∀ (cfg : CachedImageResourceModel) (probe : Except String ProbeImage)
      (st : ResourceData) (ds : List Diag),
      create cfg probe = (some st, ds) → st.existsFlag = false →
      st.image = cfg.builderImage) ∧
    (∀ (st : ResourceData) (registry : String → Except String RegImage),
      hasError (optionsFromDataModel st.cfg).2 = false →
      st.image = st.cfg.builderImage →
      read st registry =
        (.removed ((optionsFromDataModel st.cfg).2 ++ [⟨.warning, .rerunProbe⟩]),
         0)) ∧
    (∀ (st : ResourceData) (registry : String → Except String RegImage)
      (st' : ResourceData) (ds : List Diag) (n : Nat),
      read st registry = (.updated st' ds, n) → st'.existsFlag = true) := by
  refine ⟨?_, ?_, ?_⟩
  · intro cfg probe st ds h hex
    unfold create at h
    by_cases herr : hasError (optionsFromDataModel cfg).2
    · simp [herr] at h
    · simp only [herr, Bool.false_eq_true, if_false] at h
      cases probe with
      | error e =>
        simp only [Prod.mk.injEq, Option.some.injEq] at h
        rw [← h.1]
      | ok img =>
        cases hd : img.digest with
        | error e => simp [hd] at h
        | ok d =>
          simp only [hd, Prod.mk.injEq, Option.some.injEq] at h
          rw [← h.1] at hex
          simp at hex
  · intro st registry herr him
    unfold read
    simp [herr, him]
  · intro st registry st' ds n h
    unfold read at h
    by_cases herr : hasError (optionsFromDataModel st.cfg).2
    · simp [herr] at h
    · simp only [herr, Bool.false_eq_true, if_false] at h
      by_cases him : st.image == st.cfg.builderImage
      · simp [him] at h
      · simp only [him, Bool.false_eq_true, if_false] at h
        cases hr : registry st.image with
        | error e =>
          rw [hr] at h
          by_cases hm : containsSubstr e "MANIFEST_UNKNOWN" = false <;>
            simp [hm] at h
        | ok img =>
          rw [hr] at h
          cases hd : img.digest with
          | error e2 => simp [hd] at h
          | ok d =>
            simp only [hd, Prod.mk.injEq, ReadOutcome.updated.injEq] at h
            rw [← h.1.1]

/-- Witness for C6_miss_state_invariant: a Read over the recorded-miss state
removes it with the single re-probe warning and zero registry calls. -/
theorem C6_miss_state_invariant_witness :
    read wstateMiss (fun _ => .error "boom") =
      (.removed [⟨.warning, .rerunProbe⟩], 0) := by
  have h := C6_miss_state_invariant.2.1 wstateMiss (fun _ => .error "boom")
    (by rfl) (by rfl)
  simpa using h

/-- Claim C7: on Create, a probe error yields a saved state with the builder
image as resolved image, the nil UUID sentinel as identifier and existence
false, reported with a warning-level diagnostic; a digest read failure on a
successful probe aborts the pass with an error-level diagnostic and no saved
state. -/
theorem C7_probe_error_handling :
    (∀ (cfg : CachedImageResourceModel) (e : String),
      hasError (optionsFromDataModel cfg).2 = false →
      (create cfg (.error e)).2 =
        (optionsFromDataModel cfg).2 ++ [⟨.warning, .cachedImageNotFound⟩] ∧
      ∃ st, (create cfg (.error e)).1 = some st ∧
        st.image = cfg.builderImage ∧ st.id = uuidNil ∧
        st.existsFlag = false) ∧
    (∀ (cfg : CachedImageResourceModel) (img : ProbeImage) (e : String),
      hasError (optionsFromDataModel cfg).2 = false →
      img.digest = .error e →
      create cfg (.ok img) =
        (none, (optionsFromDataModel cfg).2 ++ [⟨.error, .failedDigest⟩])) := by
  constructor
  · intro cfg e herr
    unfold create
    simp only [herr, Bool.false_eq_true, if_false]
    exact ⟨trivial, _, rfl, rfl, rfl, rfl⟩
  · intro cfg img e herr hd
    unfold create
    simp [herr, hd]

/-- Witness for C7_probe_error_handling: a probe error on the minimal
configuration saves the miss state and warns. -/
theorem C7_probe_error_handling_witness :
    (create wcfg (.error "probe failed")).2 =
      [⟨.warning, .cachedImageNotFound⟩] ∧
    ∃ st, (create wcfg (.error "probe failed")).1 = some st ∧
      st.image = wcfg.builderImage ∧ st.id = uuidNil ∧
      st.existsFlag = false := by
  have h := (C7_probe_error_handling.1 wcfg "probe failed" (by rfl))
  simpa using h

/-- Claim C8: a Read pass hitting a registry error that does not carry the
MANIFEST_UNKNOWN marker leaves the stored state untouched and surfaces
exactly one warning-level diagnostic beyond the resolution diagnostics — the
state is neither invalidated nor refreshed. -/
theorem C8_transient_registry_error (st : ResourceData)
    (registry : String → Except String RegImage) (e : String)
    (herr : hasError (optionsFromDataModel st.cfg).2 = false)
    (him : (st.image == st.cfg.builderImage) = false)
    (hreg : registry st.image = .error e)
    (hm : containsSubstr e "MANIFEST_UNKNOWN" = false) :
    read st registry =
      (.unchanged ((optionsFromDataModel st.cfg).2 ++
        [⟨.warning, .unableToCheckImage⟩]), 1) := by
  unfold read
  simp [herr, him, hreg, hm]

/-- Witness for C8_transient_registry_error: an ambiguous registry failure
on the previously found state leaves it unchanged after one registry call. -/
theorem C8_transient_registry_error_witness :
    read wstate (fun _ => .error "connection refused") =
      (.unchanged [⟨.warning, .unableToCheckImage⟩], 1) := by
  have h := C8_transient_registry_error wstate
    (fun _ => .error "connection refused") "connection refused"
    (by rfl) (by rfl) (by rfl) (by rfl)
  simpa using h

end Envbuilder
